import Mathlib

/-!
Verification of the AssetCrafter asset-composition core.

The development shallowly embeds the Python sources:
  assetcrafter.py : Asset / AssetMap, get_tile_size, create_icon, create_map
  main.py         : the earlier variant (Asset.store, true-division select)

Pixel buffers are modelled as a mode tag, a width, a height and a total
pixel function; the geometric behaviour of the external image codec's
crop / paste / new / resize / convert operations is modelled exactly
(crop pads out-of-range reads with zero, paste clips to the canvas,
paste without a mask overwrites), while resampling kernels and channel
re-encoding are abstracted (the spec treats the codec as an external
collaborator and no claim depends on them).

Machine integers are Nat; Python's true division in the main.py variant
and in create_icon's scale factor is modelled with exact rationals, and
Pillow's crop-box rounding (round-half-to-even, as Python's round) is
made explicit.  Python's `//` on naturals is Nat division; the spots
where Python would raise ZeroDivisionError are modelled as explicit
error results inside the algorithms (create_map, create_icon).
-/

/-- One pixel sample: red, green, blue, alpha channels. -/
structure Pixel where
  r : Nat
  g : Nat
  b : Nat
  a : Nat
deriving DecidableEq

def Pixel.zero : Pixel := ⟨0, 0, 0, 0⟩

/-- An in-memory pixel buffer: color-mode tag, size and pixel samples. -/
structure Image where
  mode : String
  width : Nat
  height : Nat
  pix : Nat → Nat → Pixel

/-- PIL.Image.new: a blank canvas filled with one color (zero when Python
passes no color, transparent (0,0,0,0) in create_icon). -/
def Image.new (mode : String) (width height : Nat) (fill : Pixel) : Image :=
  ⟨mode, width, height, fun _ _ => fill⟩

/-- PIL crop with an integer box (left, top, right, bottom): the result is
(right-left) × (bottom-top); reads beyond the source bounds give zero. -/
def crop (img : Image) (left top right bottom : Nat) : Image where
  mode := img.mode
  width := right - left
  height := bottom - top
  pix := fun dx dy =>
    if left + dx < img.width ∧ top + dy < img.height then img.pix (left + dx) (top + dy)
    else Pixel.zero

/-- PIL paste at (x, y) without a mask: source pixels overwrite the canvas,
clipped to the canvas bounds; size and mode of the canvas are kept. -/
def paste (canvas src : Image) (x y : Nat) : Image :=
  { canvas with
    pix := fun px py =>
      if x ≤ px ∧ px < x + src.width ∧ y ≤ py ∧ py < y + src.height ∧
         px < canvas.width ∧ py < canvas.height then
        src.pix (px - x) (py - y)
      else canvas.pix px py }

/-- PIL convert: retags the color mode; the per-channel re-encoding is the
external codec's business (out of the spec's scope) and sample values are
carried through unchanged. -/
def Image.convert (img : Image) (mode : String) : Image :=
  { img with mode := mode }

/-- Resampling filter chosen in create_icon: Python passes None (the default
smooth filter) or Image.Resampling.NEAREST. -/
inductive Resampling where
  | default
  | nearest
deriving DecidableEq

/-- PIL resize: the result has exactly the requested size; the sampling
kernel is the external codec's, modelled as nearest-point sampling. -/
def resize (img : Image) (w h : Nat) ( _f : Resampling) : Image where
  mode := img.mode
  width := w
  height := h
  pix := fun dx dy => img.pix (dx * img.width / w) (dy * img.height / h)

/-- Whether PIL getbbox counts the pixel at (x, y) as non-zero: for an
alpha-capable image only the alpha channel counts; otherwise any non-zero
channel counts. -/
def Image.nonzeroAt (img : Image) (x y : Nat) : Bool :=
  if img.mode = "RGBA" then decide ((img.pix x y).a ≠ 0)
  else decide (¬((img.pix x y).r = 0 ∧ (img.pix x y).g = 0 ∧ (img.pix x y).b = 0))

/-- All in-bounds positions whose pixel counts as non-zero. -/
def nonzeroPoints (img : Image) : List (Nat × Nat) :=
  (List.range img.width).flatMap (fun x =>
    (List.range img.height).filterMap (fun y =>
      if img.nonzeroAt x y then some (x, y) else none))

/-- PIL getbbox: the tight bounding box (left, top, right, bottom) of the
non-zero region, or none when the image has no non-zero pixel. -/
def Image.getbbox (img : Image) : Option (Nat × Nat × Nat × Nat) :=
  match nonzeroPoints img with
  | [] => none
  | p :: ps =>
    some (((p :: ps).map Prod.fst).foldl Nat.min p.1,
          ((p :: ps).map Prod.snd).foldl Nat.min p.2,
          ((p :: ps).map Prod.fst).foldl Nat.max p.1 + 1,
          ((p :: ps).map Prod.snd).foldl Nat.max p.2 + 1)

/-- PIL crop applied to an optional box: crop(None) copies the whole image
(this is what assetcrafter.py line 58 does on a fully transparent source). -/
def cropBox (img : Image) : Option (Nat × Nat × Nat × Nat) → Image
  | none => img
  | some (l, t, r2, b) => crop img l t r2 b

/-- The Asset / AssetMap hierarchy as a tagged variant: a plain Asset wraps
one buffer; an AssetMap additionally carries the grid row/column counts. -/
inductive Asset where
  | plain (image : Image)
  | map (image : Image) (rows cols : Nat)

def Asset.image : Asset → Image
  | .plain img => img
  | .map img _ _ => img

/-- Asset.format: the buffer's color mode, read live from the buffer. -/
def Asset.format (a : Asset) : String := a.image.mode

/-- Asset.size: the buffer's (width, height), read live from the buffer. -/
def Asset.size (a : Asset) : Nat × Nat := (a.image.width, a.image.height)

/-- Asset.save (assetcrafter.py) / Asset.store (main.py): convert a copy of
the buffer to the target mode and write it out.  The written image is
returned together with the asset's state after the call (the method never
rebinds self.image, so the asset is returned unchanged). -/
def Asset.save (a : Asset) ( _name : String) (targetMode : String) : Image × Asset :=
  (a.image.convert targetMode, a)

def Asset.store (a : Asset) (name : String) (targetMode : String) : Image × Asset :=
  a.save name targetMode

/-- AssetMap.tile_size (assetcrafter.py line 38): floor-divides the buffer
width by the column count and the height by the row count.  (Python `//`
raises ZeroDivisionError on a zero divisor; Nat division returns 0 there.) -/
def tile_size (img : Image) (rows cols : Nat) : Nat × Nat :=
  (img.width / cols, img.height / rows)

/-- AssetMap.select (assetcrafter.py lines 40-43): crop the tile-size
rectangle whose top-left corner is (tileWidth * col, tileHeight * row). -/
def select (img : Image) (rows cols row col : Nat) : Asset :=
  Asset.plain (crop img
    ((tile_size img rows cols).1 * col)
    ((tile_size img rows cols).2 * row)
    ((tile_size img rows cols).1 * col + (tile_size img rows cols).1)
    ((tile_size img rows cols).2 * row + (tile_size img rows cols).2))

/-- Python round: round half to even (used by Pillow on crop boxes). -/
def pyRound (q : ℚ) : ℤ :=
  if q - Int.floor q < 1 / 2 then Int.floor q
  else if 1 / 2 < q - Int.floor q then Int.floor q + 1
  else if Int.floor q % 2 = 0 then Int.floor q else Int.floor q + 1

/-- PIL crop with a rational box: Pillow rounds every coordinate with
Python round (half to even) before cropping. -/
def cropQ (img : Image) (x0 y0 x1 y1 : ℚ) : Image :=
  crop img (pyRound x0).toNat (pyRound y0).toNat (pyRound x1).toNat (pyRound y1).toNat

/-- AssetMap.select of the main.py variant (lines 28-33): the tile extent
is the TRUE division width/cols × height/rows and the crop box is built
from those rationals, so Pillow's rounding decides the resulting size. -/
def selectMain (img : Image) (rows cols row col : Nat) : Asset :=
  Asset.plain (cropQ img
    ((img.width : ℚ) / cols * col)
    ((img.height : ℚ) / rows * row)
    ((img.width : ℚ) / cols * col + (img.width : ℚ) / cols)
    ((img.height : ℚ) / rows * row + (img.height : ℚ) / rows))

/-- get_tile_size (assetcrafter.py lines 46-50): an AssetMap contributes its
computed tile size, a plain Asset its full size. -/
def get_tile_size : Asset → Nat × Nat
  | .map img rows cols => tile_size img rows cols
  | .plain img => (img.width, img.height)

/-- Lexicographic order on size pairs: how Python compares the tuples in
max over the set of tile sizes. -/
def lexLe (a b : Nat × Nat) : Prop :=
  a.1 < b.1 ∨ (a.1 = b.1 ∧ a.2 ≤ b.2)

/-- Python max of two size tuples (lexicographic). -/
def tupleMax (a b : Nat × Nat) : Nat × Nat :=
  if a.1 < b.1 then b
  else if b.1 < a.1 then a
  else if a.2 < b.2 then b
  else a

/-- Python max over a collection of size tuples; none on an empty
collection (where Python max raises ValueError). -/
def lexMax : List (Nat × Nat) → Option (Nat × Nat)
  | [] => none
  | x :: xs => some (xs.foldl tupleMax x)

/-- The unified tile size of create_map line 70: Python
max over the set of native tile sizes (the set only deduplicates, which
cannot change the maximum). -/
def unified_tile_size (sources : List Asset) : Option (Nat × Nat) :=
  lexMax (sources.map get_tile_size)

/-- The runtime errors the two algorithms can raise in Python. -/
inductive MapError where
  | emptySources
  | emptyContent
  | cellIndex
  | zeroDivision
deriving DecidableEq

/-- Resolution of one content cell (create_map lines 75-77): index into
sources with the cell's first entry; an AssetMap source is narrowed with
select on the cell's second and third entries, a plain Asset is used
directly (further entries ignored).  Python raises IndexError on a missing
entry or an out-of-range source index. -/
def resolveTile (sources : List Asset) (cell : List Nat) : Except MapError Image :=
  match cell[0]? with
  | none => Except.error MapError.cellIndex
  | some i =>
    match sources[i]? with
    | none => Except.error MapError.cellIndex
    | some (Asset.plain img) => Except.ok img
    | some (Asset.map img rows cols) =>
      match cell[1]?, cell[2]? with
      | some r, some c => Except.ok ((select img rows cols r c).image)
      | _, _ => Except.error MapError.cellIndex

/-- The inner loop of create_map (line 74, 78): paste the tiles of one
content row at x = col * tileWidth, y = row * tileHeight, walking the
columns from the given starting index. -/
def pasteRowCells (sources : List Asset) (tw th row : Nat) :
    Nat → Image → List (List Nat) → Except MapError Image
  | _, img, [] => Except.ok img
  | col, img, cell :: rest =>
    match resolveTile sources cell with
    | Except.error e => Except.error e
    | Except.ok t =>
      pasteRowCells sources tw th row (col + 1) (paste img t (col * tw) (row * th)) rest

/-- The outer loop of create_map (line 73): process the content rows in
order, starting at the given row index. -/
def pasteRows (sources : List Asset) (tw th : Nat) :
    Nat → Image → List (List (List Nat)) → Except MapError Image
  | _, img, [] => Except.ok img
  | row, img, r :: rest =>
    match pasteRowCells sources tw th row 0 img r with
    | Except.error e => Except.error e
    | Except.ok img2 => pasteRows sources tw th (row + 1) img2 rest

/-- create_map (assetcrafter.py lines 68-79), step by step in Python's
evaluation order: the output mode is RGBA iff some source's mode is RGBA;
the tile size is the Python max over the sources' native tile sizes
(ValueError on an empty sources list); the canvas is
tileWidth * len(content[0]) × tileHeight * len(content) (IndexError on an
empty content list); each cell is resolved and pasted; the result is
wrapped as an AssetMap with height // tileHeight rows and
width // tileWidth cols (ZeroDivisionError on a zero tile dimension). -/
def create_map (sources : List Asset) (content : List (List (List Nat))) :
    Except MapError Asset :=
  match unified_tile_size sources with
  | none => Except.error MapError.emptySources
  | some ts =>
    match content[0]? with
    | none => Except.error MapError.emptyContent
    | some firstRow =>
      match pasteRows sources ts.1 ts.2 0
          (Image.new (if sources.any (fun s => s.format == "RGBA") then "RGBA" else "RGB")
            (ts.1 * firstRow.length) (ts.2 * content.length) Pixel.zero) content with
      | Except.error e => Except.error e
      | Except.ok image =>
        if ts.1 = 0 ∨ ts.2 = 0 then Except.error MapError.zeroDivision
        else Except.ok (Asset.map image
          (ts.2 * content.length / ts.2) (ts.1 * firstRow.length / ts.1))

/-- The error create_icon can raise: Python ZeroDivisionError from
width / original_width when the cropped content has a zero dimension. -/
inductive IconError where
  | zeroDivision
deriving DecidableEq

/-- The content of create_icon (line 58): the source cropped to the
bounding box of its non-transparent pixels; crop(None) copies the image. -/
def iconContent (source : Asset) : Image :=
  cropBox source.image source.image.getbbox

/-- The resized content's dimensions (lines 60-61): the uniform scale
factor is min(width/contentWidth, height/contentHeight) as a true
division, and each dimension is int-truncated after scaling. -/
def iconScaled (source : Asset) (width height : Nat) : Nat × Nat :=
  ((Int.floor ((iconContent source).width *
      min ((width : ℚ) / (iconContent source).width)
          ((height : ℚ) / (iconContent source).height))).toNat,
   (Int.floor ((iconContent source).height *
      min ((width : ℚ) / (iconContent source).width)
          ((height : ℚ) / (iconContent source).height))).toNat)

/-- create_icon (assetcrafter.py lines 53-65): crop to the content
bounding box, scale uniformly to fit (width, height), paste centered on a
transparent RGBA canvas of exactly (width, height).  The scaling argument
models the optional dict: none means the default smooth filter, some
false selects NEAREST.  Python raises ZeroDivisionError when the content
width or height is zero. -/
def create_icon (source : Asset) (width height : Nat) (smooth : Option Bool) :
    Except IconError Asset :=
  if (iconContent source).width = 0 ∨ (iconContent source).height = 0 then
    Except.error IconError.zeroDivision
  else
    Except.ok (Asset.plain (paste
      (Image.new "RGBA" width height Pixel.zero)
      (resize (iconContent source)
        (iconScaled source width height).1 (iconScaled source width height).2
        (match smooth with
         | none => Resampling.default
         | some true => Resampling.default
         | some false => Resampling.nearest))
      ((width - (iconScaled source width height).1) / 2)
      ((height - (iconScaled source width height).2) / 2)))

/-- Total extraction of a successful result (used to state concrete facts
about calls that are proved to succeed). -/
def okAsset (e : Except MapError Asset) : Asset :=
  match e with
  | Except.ok a => a
  | Except.error _ => Asset.plain (Image.new "RGB" 0 0 Pixel.zero)

def okIcon (e : Except IconError Asset) : Asset :=
  match e with
  | Except.ok a => a
  | Except.error _ => Asset.plain (Image.new "RGB" 0 0 Pixel.zero)

/-! ### Concrete pixel buffers used in witnesses and counterexamples -/

def pixA : Pixel := ⟨1, 2, 3, 255⟩

def imgOne : Image := Image.new "RGB" 1 1 pixA

def imgTwo : Image := Image.new "RGB" 2 2 pixA

def imgTwoThree : Image := Image.new "RGB" 2 3 pixA

def imgTen : Image := Image.new "RGB" 10 10 pixA

def imgClear : Image := Image.new "RGBA" 1 1 Pixel.zero

def imgZeroW : Image := Image.new "RGBA" 0 5 Pixel.zero

def imgGridSrc : Image := ⟨"RGB", 2, 2, fun x y => ⟨x, y, 0, 255⟩⟩

/-! ### Basic lemmas about the pixel-buffer operations -/

theorem paste_width (c s : Image) (x y : Nat) : (paste c s x y).width = c.width := rfl

theorem paste_height (c s : Image) (x y : Nat) : (paste c s x y).height = c.height := rfl

theorem paste_mode (c s : Image) (x y : Nat) : (paste c s x y).mode = c.mode := rfl

theorem paste_frame (c s : Image) (x y px py : Nat)
    (h : px < x ∨ x + s.width ≤ px ∨ py < y ∨ y + s.height ≤ py) :
    (paste c s x y).pix px py = c.pix px py := by
  show (if _ then _ else _) = _
  rw [if_neg]
  rintro ⟨h1, h2, h3, h4, h5, h6⟩
  rcases h with h | h | h | h <;> omega

theorem paste_hit (c s : Image) (x y dx dy : Nat)
    (h1 : dx < s.width) (h2 : dy < s.height)
    (h3 : x + dx < c.width) (h4 : y + dy < c.height) :
    (paste c s x y).pix (x + dx) (y + dy) = s.pix dx dy := by
  show (if _ then _ else _) = _
  rw [if_pos]
  · rw [Nat.add_sub_cancel_left, Nat.add_sub_cancel_left]
  · exact ⟨Nat.le_add_right x dx, by omega, Nat.le_add_right y dy, by omega, h3, h4⟩

theorem crop_width (img : Image) (l t r b : Nat) : (crop img l t r b).width = r - l := rfl

theorem crop_height (img : Image) (l t r b : Nat) : (crop img l t r b).height = b - t := rfl

theorem crop_pix (img : Image) (l t r b dx dy : Nat)
    (h1 : l + dx < img.width) (h2 : t + dy < img.height) :
    (crop img l t r b).pix dx dy = img.pix (l + dx) (t + dy) := by
  show (if _ then _ else _) = _
  rw [if_pos ⟨h1, h2⟩]

/-! ### Lemmas about the composition loops -/

theorem pasteRowCells_dims (sources : List Asset) (tw th row : Nat) :
    ∀ (cells : List (List Nat)) (c0 : Nat) (img img2 : Image),
    pasteRowCells sources tw th row c0 img cells = Except.ok img2 →
    img2.width = img.width ∧ img2.height = img.height ∧ img2.mode = img.mode := by
  intro cells
  induction cells with
  | nil =>
    intro c0 img img2 h
    simp only [pasteRowCells] at h
    cases h
    exact ⟨rfl, rfl, rfl⟩
  | cons cell rest ih =>
    intro c0 img img2 h
    simp only [pasteRowCells] at h
    cases hres : resolveTile sources cell with
    | error e => rw [hres] at h; cases h
    | ok t =>
      rw [hres] at h
      exact ih (c0 + 1) (paste img t (c0 * tw) (row * th)) img2 h

theorem pasteRows_dims (sources : List Asset) (tw th : Nat) :
    ∀ (rows : List (List (List Nat))) (r0 : Nat) (img img2 : Image),
    pasteRows sources tw th r0 img rows = Except.ok img2 →
    img2.width = img.width ∧ img2.height = img.height ∧ img2.mode = img.mode := by
  intro rows
  induction rows with
  | nil =>
    intro r0 img img2 h
    simp only [pasteRows] at h
    cases h
    exact ⟨rfl, rfl, rfl⟩
  | cons r rest ih =>
    intro r0 img img2 h
    simp only [pasteRows] at h
    cases hrow : pasteRowCells sources tw th r0 0 img r with
    | error e => rw [hrow] at h; cases h
    | ok img1 =>
      rw [hrow] at h
      have h1 := pasteRowCells_dims sources tw th r0 r 0 img img1 hrow
      have h2 := ih (r0 + 1) img1 img2 h
      exact ⟨h2.1.trans h1.1, h2.2.1.trans h1.2.1, h2.2.2.trans h1.2.2⟩

theorem pasteRowCells_frame (sources : List Asset) (tw th row px py : Nat) :
    ∀ (cells : List (List Nat)) (c0 : Nat) (img img2 : Image),
    pasteRowCells sources tw th row c0 img cells = Except.ok img2 →
    px < c0 * tw ∨ py < row * th →
    img2.pix px py = img.pix px py := by
  intro cells
  induction cells with
  | nil =>
    intro c0 img img2 h hp
    simp only [pasteRowCells] at h
    cases h
    rfl
  | cons cell rest ih =>
    intro c0 img img2 h hp
    simp only [pasteRowCells] at h
    cases hres : resolveTile sources cell with
    | error e => rw [hres] at h; cases h
    | ok t =>
      rw [hres] at h
      have hnext : px < (c0 + 1) * tw ∨ py < row * th := by
        refine hp.imp_left (fun hx => lt_of_lt_of_le hx ?_)
        exact Nat.mul_le_mul_right tw (Nat.le_succ c0)
      rw [ih (c0 + 1) (paste img t (c0 * tw) (row * th)) img2 h hnext]
      apply paste_frame
      rcases hp with hx | hy
      · exact Or.inl hx
      · exact Or.inr (Or.inr (Or.inl hy))

theorem pasteRowCells_hit (sources : List Asset) (tw th row : Nat) :
    ∀ (cells : List (List Nat)) (c0 j : Nat) (img img2 : Image) (cell : List Nat)
      (t : Image) (dx dy : Nat),
    pasteRowCells sources tw th row c0 img cells = Except.ok img2 →
    cells[j]? = some cell →
    resolveTile sources cell = Except.ok t →
    dx < t.width → dy < t.height → t.width ≤ tw →
    (c0 + j) * tw + dx < img.width → row * th + dy < img.height →
    img2.pix ((c0 + j) * tw + dx) (row * th + dy) = t.pix dx dy := by
  intro cells
  induction cells with
  | nil =>
    intro c0 j img img2 cell t dx dy h hj
    simp at hj
  | cons c rest ih =>
    intro c0 j img img2 cell t dx dy h hj hres hdx hdy htw hbx hby
    simp only [pasteRowCells] at h
    cases hresc : resolveTile sources c with
    | error e => rw [hresc] at h; cases h
    | ok t0 =>
      rw [hresc] at h
      cases j with
      | zero =>
        rw [List.getElem?_cons_zero] at hj
        injection hj with hj
        subst hj
        rw [hres] at hresc
        injection hresc with hresc
        subst hresc
        have hfr := pasteRowCells_frame sources tw th row (c0 * tw + dx) (row * th + dy)
          rest (c0 + 1) (paste img t (c0 * tw) (row * th)) img2 h
          (Or.inl (by
            have h1 : c0 * tw + dx < c0 * tw + tw := by omega
            have h2 : c0 * tw + tw = (c0 + 1) * tw := by ring
            omega))
        have hz : c0 + 0 = c0 := by omega
        rw [hz] at hbx ⊢
        rw [hfr]
        exact paste_hit img t (c0 * tw) (row * th) dx dy hdx hdy hbx hby
      | succ j2 =>
        rw [List.getElem?_cons_succ] at hj
        have heq : c0 + (j2 + 1) = (c0 + 1) + j2 := by omega
        rw [heq] at hbx ⊢
        refine ih (c0 + 1) j2 (paste img t0 (c0 * tw) (row * th)) img2 cell t dx dy
          h hj hres hdx hdy htw ?_ ?_
        · rw [paste_width]; exact hbx
        · rw [paste_height]; exact hby

theorem pasteRows_frame (sources : List Asset) (tw th px py : Nat) :
    ∀ (rows : List (List (List Nat))) (r0 : Nat) (img img2 : Image),
    pasteRows sources tw th r0 img rows = Except.ok img2 →
    py < r0 * th →
    img2.pix px py = img.pix px py := by
  intro rows
  induction rows with
  | nil =>
    intro r0 img img2 h hp
    simp only [pasteRows] at h
    cases h
    rfl
  | cons r rest ih =>
    intro r0 img img2 h hp
    simp only [pasteRows] at h
    cases hrow : pasteRowCells sources tw th r0 0 img r with
    | error e => rw [hrow] at h; cases h
    | ok img1 =>
      rw [hrow] at h
      have hnext : py < (r0 + 1) * th :=
        lt_of_lt_of_le hp (Nat.mul_le_mul_right th (Nat.le_succ r0))
      rw [ih (r0 + 1) img1 img2 h hnext]
      exact pasteRowCells_frame sources tw th r0 px py r 0 img img1 hrow (Or.inr hp)

theorem pasteRows_hit (sources : List Asset) (tw th : Nat) :
    ∀ (rows : List (List (List Nat))) (r0 k : Nat) (img img2 : Image)
      (rcells : List (List Nat)) (cell : List Nat) (t : Image) (c dx dy : Nat),
    pasteRows sources tw th r0 img rows = Except.ok img2 →
    rows[k]? = some rcells →
    rcells[c]? = some cell →
    resolveTile sources cell = Except.ok t →
    dx < t.width → dy < t.height → t.width ≤ tw → t.height ≤ th →
    c * tw + dx < img.width → (r0 + k) * th + dy < img.height →
    img2.pix (c * tw + dx) ((r0 + k) * th + dy) = t.pix dx dy := by
  intro rows
  induction rows with
  | nil =>
    intro r0 k img img2 rcells cell t c dx dy h hk
    simp at hk
  | cons r rest ih =>
    intro r0 k img img2 rcells cell t c dx dy h hk hc hres hdx hdy htw hth hbx hby
    simp only [pasteRows] at h
    cases hrow : pasteRowCells sources tw th r0 0 img r with
    | error e => rw [hrow] at h; cases h
    | ok img1 =>
      rw [hrow] at h
      cases k with
      | zero =>
        rw [List.getElem?_cons_zero] at hk
        injection hk with hk
        subst hk
        have hz : r0 + 0 = r0 := by omega
        rw [hz] at hby ⊢
        have hfr := pasteRows_frame sources tw th (c * tw + dx) (r0 * th + dy)
          rest (r0 + 1) img1 img2 h
          (by
            have h1 : r0 * th + dy < r0 * th + th := by omega
            have h2 : r0 * th + th = (r0 + 1) * th := by ring
            omega)
        rw [hfr]
        have hzc : (0 + c) * tw + dx = c * tw + dx := by ring_nf
        have := pasteRowCells_hit sources tw th r0 r 0 c img img1 cell t dx dy
          hrow hc hres hdx hdy htw (by rw [hzc]; exact hbx) hby
        rw [hzc] at this
        exact this
      | succ k2 =>
        rw [List.getElem?_cons_succ] at hk
        have heq : r0 + (k2 + 1) = (r0 + 1) + k2 := by omega
        rw [heq] at hby ⊢
        have hdims := pasteRowCells_dims sources tw th r0 r 0 img img1 hrow
        refine ih (r0 + 1) k2 img1 img2 rcells cell t c dx dy
          h hk hc hres hdx hdy htw hth ?_ ?_
        · rw [hdims.1]; exact hbx
        · rw [hdims.2.1]; exact hby

/-! ### Lemmas about the tile-size maximum -/

theorem lexLe_refl (a : Nat × Nat) : lexLe a a := by
  unfold lexLe; omega

theorem lexLe_trans (a b c : Nat × Nat) (h1 : lexLe a b) (h2 : lexLe b c) : lexLe a c := by
  unfold lexLe at h1 h2 ⊢; omega

theorem lexLe_tupleMax_left (a b : Nat × Nat) : lexLe a (tupleMax a b) := by
  unfold tupleMax lexLe
  split
  · omega
  · split
    · omega
    · split <;> omega

theorem lexLe_tupleMax_right (a b : Nat × Nat) : lexLe b (tupleMax a b) := by
  unfold tupleMax lexLe
  split
  · omega
  · split
    · omega
    · split <;> omega

theorem tupleMax_eq_or (a b : Nat × Nat) : tupleMax a b = a ∨ tupleMax a b = b := by
  unfold tupleMax
  split
  · exact Or.inr rfl
  · split
    · exact Or.inl rfl
    · split
      · exact Or.inr rfl
      · exact Or.inl rfl

theorem foldl_tupleMax_le_init : ∀ (l : List (Nat × Nat)) (a : Nat × Nat),
    lexLe a (l.foldl tupleMax a) := by
  intro l
  induction l with
  | nil => intro a; exact lexLe_refl a
  | cons b l ih =>
    intro a
    exact lexLe_trans a (tupleMax a b) _ (lexLe_tupleMax_left a b) (ih (tupleMax a b))

theorem foldl_tupleMax_le_mem : ∀ (l : List (Nat × Nat)) (a s : Nat × Nat),
    s ∈ l → lexLe s (l.foldl tupleMax a) := by
  intro l
  induction l with
  | nil => intro a s hs; simp at hs
  | cons b l ih =>
    intro a s hs
    rcases List.mem_cons.mp hs with hb | hl
    · subst hb
      exact lexLe_trans s (tupleMax a s) _ (lexLe_tupleMax_right a s)
        (foldl_tupleMax_le_init l (tupleMax a s))
    · exact ih (tupleMax a b) s hl

theorem foldl_tupleMax_mem : ∀ (l : List (Nat × Nat)) (a : Nat × Nat),
    l.foldl tupleMax a = a ∨ l.foldl tupleMax a ∈ l := by
  intro l
  induction l with
  | nil => intro a; exact Or.inl rfl
  | cons b l ih =>
    intro a
    rcases ih (tupleMax a b) with he | hm
    · rw [List.foldl_cons, he]
      rcases tupleMax_eq_or a b with h | h
      · exact Or.inl h
      · exact Or.inr (by rw [h]; exact List.mem_cons_self b l)
    · exact Or.inr (List.mem_cons_of_mem b hm)

/-- Python max over a nonempty collection of size tuples is an element of
the collection and is lexicographically greatest in it. -/
theorem lexMax_spec (l : List (Nat × Nat)) (m : Nat × Nat) (h : lexMax l = some m) :
    m ∈ l ∧ ∀ s ∈ l, lexLe s m := by
  cases l with
  | nil => cases h
  | cons x xs =>
    simp only [lexMax] at h
    injection h with h
    subst h
    constructor
    · rcases foldl_tupleMax_mem xs x with he | hm
      · rw [he]; exact List.mem_cons_self x xs
      · exact List.mem_cons_of_mem x hm
    · intro s hs
      rcases List.mem_cons.mp hs with hb | hl
      · subst hb; exact foldl_tupleMax_le_init xs s
      · exact foldl_tupleMax_le_mem xs x s hl

/-! ### Destructuring a successful create_map call -/

theorem create_map_ok (sources : List Asset) (content : List (List (List Nat)))
    (a : Asset) (h : create_map sources content = Except.ok a) :
    ∃ ts firstRow image,
      unified_tile_size sources = some ts ∧
      content[0]? = some firstRow ∧
      pasteRows sources ts.1 ts.2 0
        (Image.new (if sources.any (fun s => s.format == "RGBA") then "RGBA" else "RGB")
          (ts.1 * firstRow.length) (ts.2 * content.length) Pixel.zero) content
        = Except.ok image ∧
      ts.1 ≠ 0 ∧ ts.2 ≠ 0 ∧
      a = Asset.map image (ts.2 * content.length / ts.2) (ts.1 * firstRow.length / ts.1) := by
  unfold create_map at h
  split at h
  · cases h
  · rename_i ts hts
    split at h
    · cases h
    · rename_i firstRow hfr
      split at h
      · cases h
      · rename_i image hpr
        split at h
        · cases h
        · rename_i hz
          injection h with h
          exact ⟨ts, firstRow, image, hts, hfr, hpr,
            (not_or.mp hz).1, (not_or.mp hz).2, h.symm⟩

/-! ### Claim theorems -/

/-- C9: Asset.save (assetcrafter.py line 26-27) and Asset.store (main.py
lines 18-19) convert a copy of the buffer to the target mode for writing:
the written image carries the target mode and the source buffer's size and
samples, while the asset itself — buffer, size and color mode — is
unchanged after the call (the method never rebinds self.image). -/
theorem c9_save_converts_copy (a : Asset) (name targetMode : String) :
    (a.save name targetMode).2 = a ∧
    (a.save name targetMode).1.mode = targetMode ∧
    (a.save name targetMode).1.width = a.image.width ∧
    (a.save name targetMode).1.height = a.image.height ∧
    (∀ x y, (a.save name targetMode).1.pix x y = a.image.pix x y) ∧
    a.store name targetMode = a.save name targetMode ∧
    (a.save name targetMode).2.image = a.image ∧
    (a.save name targetMode).2.format = a.format ∧
    (a.save name targetMode).2.size = a.size :=
  ⟨rfl, rfl, rfl, rfl, fun _ _ => rfl, rfl, rfl, rfl, rfl⟩

/-- C5: the canvas mode of a successful create_map (assetcrafter.py line
69) is RGBA exactly when at least one entry of the sources list has mode
RGBA, and RGB otherwise — a plain OR over the sources, independent of
which tiles the content actually references. -/
theorem c5_output_mode (sources : List Asset) (content : List (List (List Nat)))
    (a : Asset) (h : create_map sources content = Except.ok a) :
    a.image.mode = (if sources.any (fun s => s.format == "RGBA") then "RGBA" else "RGB") ∧
    (a.image.mode = "RGBA" ↔ ∃ s ∈ sources, s.format = "RGBA") := by
  obtain ⟨ts, firstRow, image, hts, hfr, hpr, h1, h2, ha⟩ := create_map_ok sources content a h
  subst ha
  have hdims := pasteRows_dims sources ts.1 ts.2 content 0
    (Image.new (if sources.any (fun s => s.format == "RGBA") then "RGBA" else "RGB")
      (ts.1 * firstRow.length) (ts.2 * content.length) Pixel.zero) image hpr
  have hmode : image.mode =
      (if sources.any (fun s => s.format == "RGBA") then "RGBA" else "RGB") := hdims.2.2
  constructor
  · exact hmode
  · show image.mode = "RGBA" ↔ _
    rw [hmode]
    by_cases hb : sources.any (fun s => s.format == "RGBA") = true
    · rw [if_pos hb]
      constructor
      · intro _
        obtain ⟨s, hs, hp⟩ := List.any_eq_true.mp hb
        exact ⟨s, hs, by simpa using hp⟩
      · intro _
        rfl
    · rw [if_neg hb]
      constructor
      · intro hcontra
        exact absurd hcontra (by decide)
      · rintro ⟨s, hs, hp⟩
        exact absurd (List.any_eq_true.mpr ⟨s, hs, by simpa using hp⟩) hb

theorem c5_output_mode_witness :
    (okAsset (create_map [Asset.plain imgOne] [[[0]]])).image.mode
      = (if [Asset.plain imgOne].any (fun s => s.format == "RGBA") then "RGBA" else "RGB") ∧
    ((okAsset (create_map [Asset.plain imgOne] [[[0]]])).image.mode = "RGBA" ↔
      ∃ s ∈ [Asset.plain imgOne], s.format = "RGBA") :=
  c5_output_mode [Asset.plain imgOne] [[[0]]]
    (okAsset (create_map [Asset.plain imgOne] [[[0]]])) rfl

/-- C3: a successful create_map whose unified tile size is (tw, th)
returns a canvas of exactly tw * numCols × th * numRows, where numCols is
the first content row's length and numRows the content row count, wrapped
as an AssetMap with exactly those row and column counts
(assetcrafter.py lines 71, 79). -/
theorem c3_output_size (sources : List Asset) (content : List (List (List Nat)))
    (a : Asset) (tw th : Nat) (firstRow : List (List Nat))
    (h : create_map sources content = Except.ok a)
    (hts : unified_tile_size sources = some (tw, th))
    (hfr : content[0]? = some firstRow) :
    a.image.width = tw * firstRow.length ∧
    a.image.height = th * content.length ∧
    ∃ img, a = Asset.map img content.length firstRow.length := by
  obtain ⟨ts, fr2, image, hts2, hfr2, hpr, h1, h2, ha⟩ := create_map_ok sources content a h
  rw [hts] at hts2
  injection hts2 with hts2
  subst hts2
  rw [hfr] at hfr2
  injection hfr2 with hfr2
  subst hfr2
  subst ha
  have hdims := pasteRows_dims sources (tw, th).1 (tw, th).2 content 0
    (Image.new (if sources.any (fun s => s.format == "RGBA") then "RGBA" else "RGB")
      ((tw, th).1 * firstRow.length) ((tw, th).2 * content.length) Pixel.zero) image hpr
  refine ⟨hdims.1, hdims.2.1, image, ?_⟩
  rw [Nat.mul_div_cancel_left content.length (Nat.pos_of_ne_zero h2),
    Nat.mul_div_cancel_left firstRow.length (Nat.pos_of_ne_zero h1)]

theorem c3_output_size_witness :
    (okAsset (create_map [Asset.plain imgOne] [[[0], [0]], [[0], [0]]])).image.width = 2 ∧
    (okAsset (create_map [Asset.plain imgOne] [[[0], [0]], [[0], [0]]])).image.height = 2 ∧
    ∃ img, okAsset (create_map [Asset.plain imgOne] [[[0], [0]], [[0], [0]]])
      = Asset.map img 2 2 := by
  simpa using c3_output_size [Asset.plain imgOne] [[[0], [0]], [[0], [0]]]
    (okAsset (create_map [Asset.plain imgOne] [[[0], [0]], [[0], [0]]])) 1 1 [[0], [0]]
    rfl rfl rfl

/-- C2 (amended): for the assetcrafter.py AssetMap, tile_size is exactly the
floor-division pair (W div C, H div R), and for every valid zero-based index
pair select returns an Asset of exactly tile size whose pixels are read from
the buffer starting at (tileWidth * col, tileHeight * row).  The claim as
stated also covers the main.py variant's select, which instead rounds
true-division crop bounds and can return a differently sized tile — see the
counterexample. -/
theorem c2_tile_size_select (img : Image) (rows cols row col : Nat)
    (hr : row < rows) (hc : col < cols) :
    tile_size img rows cols = (img.width / cols, img.height / rows) ∧
    (select img rows cols row col).image.width = (tile_size img rows cols).1 ∧
    (select img rows cols row col).image.height = (tile_size img rows cols).2 ∧
    ∀ dx dy, dx < (tile_size img rows cols).1 → dy < (tile_size img rows cols).2 →
      (select img rows cols row col).image.pix dx dy =
        img.pix ((tile_size img rows cols).1 * col + dx)
                ((tile_size img rows cols).2 * row + dy) := by
  refine ⟨rfl, ?_, ?_, ?_⟩
  · show (tile_size img rows cols).1 * col + (tile_size img rows cols).1
      - (tile_size img rows cols).1 * col = (tile_size img rows cols).1
    omega
  · show (tile_size img rows cols).2 * row + (tile_size img rows cols).2
      - (tile_size img rows cols).2 * row = (tile_size img rows cols).2
    omega
  · intro dx dy hdx hdy
    apply crop_pix
    · have e1 : (tile_size img rows cols).1 * (col + 1)
          = (tile_size img rows cols).1 * col + (tile_size img rows cols).1 :=
        Nat.mul_succ _ _
      have e2 : (tile_size img rows cols).1 * (col + 1)
          ≤ (tile_size img rows cols).1 * cols :=
        Nat.mul_le_mul_left _ hc
      have e3 : img.width / cols * cols ≤ img.width := Nat.div_mul_le_self _ _
      have e4 : (tile_size img rows cols).1 * cols = img.width / cols * cols := rfl
      omega
    · have e1 : (tile_size img rows cols).2 * (row + 1)
          = (tile_size img rows cols).2 * row + (tile_size img rows cols).2 :=
        Nat.mul_succ _ _
      have e2 : (tile_size img rows cols).2 * (row + 1)
          ≤ (tile_size img rows cols).2 * rows :=
        Nat.mul_le_mul_left _ hr
      have e3 : img.height / rows * rows ≤ img.height := Nat.div_mul_le_self _ _
      have e4 : (tile_size img rows cols).2 * rows = img.height / rows * rows := rfl
      omega

theorem c2_tile_size_select_witness :
    (select imgTen 2 2 1 1).image.pix 3 4 =
      imgTen.pix ((tile_size imgTen 2 2).1 * 1 + 3) ((tile_size imgTen 2 2).2 * 1 + 4) :=
  (c2_tile_size_select imgTen 2 2 1 1 (by decide) (by decide)).2.2.2 3 4
    (by decide) (by decide)

/-- C2 counterexample: on a 10-wide buffer with 3 columns the floor tile
width is 3, but the main.py variant's select(0, 1) crops from rational
bounds 10/3 and 20/3, which Pillow rounds to 3 and 7: the returned Asset
is 4 pixels wide, not tile-size wide, refuting the claim for that select. -/
theorem c2_counterexample :
    (tile_size imgTen 1 3).1 = 3 ∧
    (selectMain imgTen 1 3 0 1).image.width = 4 := by
  refine ⟨rfl, ?_⟩
  show (pyRound ((imgTen.width : ℚ) / 3 * 1 + (imgTen.width : ℚ) / 3)).toNat
      - (pyRound ((imgTen.width : ℚ) / 3 * 1)).toNat = 4
  have e0 : (imgTen.width : ℚ) = 10 := by norm_num [imgTen, Image.new]
  rw [e0]
  have hf1 : Int.floor ((10 : ℚ) / 3 * 1) = 3 := by
    rw [Int.floor_eq_iff] <;> norm_num
  have hf2 : Int.floor ((10 : ℚ) / 3 * 1 + (10 : ℚ) / 3) = 6 := by
    rw [Int.floor_eq_iff] <;> norm_num
  have h1 : pyRound ((10 : ℚ) / 3 * 1) = 3 := by
    unfold pyRound
    rw [hf1]
    split_ifs with hc1 hc2 hc3
    · rfl
    · norm_num at hc1
    · norm_num at hc1
    · norm_num at hc1
  have h2 : pyRound ((10 : ℚ) / 3 * 1 + (10 : ℚ) / 3) = 7 := by
    unfold pyRound
    rw [hf2]
    split_ifs with hc1 hc2 hc3
    · norm_num at hc1
    · rfl
    · norm_num at hc2
    · norm_num at hc2
  rw [h1, h2]
  rfl

/-- C1 (amended): create_map applies no size-equality check: a call whose
sources carry two distinct native tile sizes can still succeed (no
SizeMismatchError exists), and the unified tile size it uses is the Python
max over the native tile sizes — an element of that collection that is
lexicographically greatest — which scales the output canvas. -/
theorem c1_max_tile_size (sources : List Asset) (content : List (List (List Nat)))
    (a : Asset) (s1 s2 : Nat × Nat)
    (h1 : s1 ∈ sources.map get_tile_size) (h2 : s2 ∈ sources.map get_tile_size)
    (hne : s1 ≠ s2)
    (h : create_map sources content = Except.ok a) :
    ∃ ts firstRow,
      unified_tile_size sources = some ts ∧
      ts ∈ sources.map get_tile_size ∧
      (∀ s ∈ sources.map get_tile_size, lexLe s ts) ∧
      content[0]? = some firstRow ∧
      a.image.width = ts.1 * firstRow.length ∧
      a.image.height = ts.2 * content.length := by
  obtain ⟨ts, firstRow, image, hts, hfr, hpr, hz1, hz2, ha⟩ := create_map_ok sources content a h
  have hspec := lexMax_spec (sources.map get_tile_size) ts hts
  subst ha
  have hdims := pasteRows_dims sources ts.1 ts.2 content 0
    (Image.new (if sources.any (fun s => s.format == "RGBA") then "RGBA" else "RGB")
      (ts.1 * firstRow.length) (ts.2 * content.length) Pixel.zero) image hpr
  exact ⟨ts, firstRow, hts, hspec.1, hspec.2, hfr, hdims.1, hdims.2.1⟩

theorem c1_max_tile_size_witness :
    ∃ (ts : Nat × Nat) (firstRow : List (List Nat)),
      unified_tile_size [Asset.plain imgOne, Asset.plain imgTwo] = some ts ∧
      ts ∈ [Asset.plain imgOne, Asset.plain imgTwo].map get_tile_size ∧
      (∀ s ∈ [Asset.plain imgOne, Asset.plain imgTwo].map get_tile_size, lexLe s ts) ∧
      ([[[0]]] : List (List (List Nat)))[0]? = some firstRow ∧
      (okAsset (create_map [Asset.plain imgOne, Asset.plain imgTwo] [[[0]]])).image.width
        = ts.1 * firstRow.length ∧
      (okAsset (create_map [Asset.plain imgOne, Asset.plain imgTwo] [[[0]]])).image.height
        = ts.2 * ([[[0]]] : List (List (List Nat))).length :=
  c1_max_tile_size [Asset.plain imgOne, Asset.plain imgTwo] [[[0]]]
    (okAsset (create_map [Asset.plain imgOne, Asset.plain imgTwo] [[[0]]]))
    (1, 1) (2, 2) (by decide) (by decide) (by decide) rfl

/-- C1 counterexample: two plain sources of distinct native sizes 1×1 and
2×2 feed one create_map call, which does NOT fail: it returns a 2×2 output
canvas built at the lexicographically greatest tile size, refuting the
claimed SizeMismatchError failure with no output. -/
theorem c1_counterexample :
    get_tile_size (Asset.plain imgOne) ≠ get_tile_size (Asset.plain imgTwo) ∧
    (create_map [Asset.plain imgOne, Asset.plain imgTwo] [[[0]]]).toOption.map
      (fun a => (a.image.width, a.image.height)) = some (2, 2) :=
  ⟨by decide, rfl⟩

/-- C6 (amended): create_map performs no grid validation and knows no
MalformedGridError: an empty content grid fails with the IndexError from
evaluating content[0] (whenever the sources list is nonempty, so that the
earlier max over tile sizes does not fail first), and jagged grids are not
rejected at all — the first row's length fixes the column count (see the
counterexample, where a jagged grid composes successfully). -/
theorem c6_empty_grid_index_error (sources : List Asset) (hs : sources ≠ []) :
    create_map sources [] = Except.error MapError.emptyContent := by
  cases sources with
  | nil => exact absurd rfl hs
  | cons s rest => rfl

theorem c6_empty_grid_index_error_witness :
    ([Asset.plain imgOne] : List Asset) ≠ [] ∧
    create_map [Asset.plain imgOne] [] = Except.error MapError.emptyContent :=
  ⟨List.cons_ne_nil _ _, c6_empty_grid_index_error [Asset.plain imgOne] (List.cons_ne_nil _ _)⟩

/-- C6 counterexample: no MalformedGridError exists in the code: the empty
grid fails with the content[0] IndexError instead, and a jagged grid (row
lengths 1 and 2) is not rejected — it composes successfully into a 1×2
canvas sized by the first row's length. -/
theorem c6_counterexample :
    create_map [Asset.plain imgOne] [] = Except.error MapError.emptyContent ∧
    (create_map [Asset.plain imgOne] [[[0]], [[0], [0]]]).toOption.map
      (fun a => (a.image.width, a.image.height)) = some (1, 2) :=
  ⟨rfl, rfl⟩

theorem select_pix (img : Image) (rows cols row col dx dy : Nat)
    (h1 : (tile_size img rows cols).1 * col + dx < img.width)
    (h2 : (tile_size img rows cols).2 * row + dy < img.height) :
    (select img rows cols row col).image.pix dx dy =
      img.pix ((tile_size img rows cols).1 * col + dx)
              ((tile_size img rows cols).2 * row + dy) :=
  crop_pix img _ _ _ _ dx dy h1 h2

/-- C10 (amended): whenever create_map succeeds with unified tile size
(tw, th) and the first content row is nonempty, the returned AssetMap's own
tile_size equals exactly (tw, th), and selecting cell (r, c) of the result
reads precisely the canvas rectangle with top-left corner (tw * c, th * r)
— the region into which the reference at content[r][c] was pasted.  With
an empty first row the claim fails: the result has zero columns and its
tile width is not tw (Python raises ZeroDivisionError in tile_size; the
Nat model yields 0) — see the counterexample. -/
theorem c10_result_tile_size (sources : List Asset) (content : List (List (List Nat)))
    (a : Asset) (tw th : Nat) (firstRow : List (List Nat))
    (h : create_map sources content = Except.ok a)
    (hts : unified_tile_size sources = some (tw, th))
    (hfr : content[0]? = some firstRow)
    (hne : firstRow.length ≠ 0) :
    ∃ img, a = Asset.map img content.length firstRow.length ∧
      tile_size img content.length firstRow.length = (tw, th) ∧
      ∀ r c dx dy, r < content.length → c < firstRow.length → dx < tw → dy < th →
        (select img content.length firstRow.length r c).image.pix dx dy =
          img.pix (tw * c + dx) (th * r + dy) := by
  obtain ⟨ts, fr2, image, hts2, hfr2, hpr, h1, h2, ha⟩ := create_map_ok sources content a h
  rw [hts] at hts2
  injection hts2 with hts2
  subst hts2
  rw [hfr] at hfr2
  injection hfr2 with hfr2
  subst hfr2
  subst ha
  have hlen : content.length ≠ 0 := by
    intro hcl
    rw [List.getElem?_eq_none (by omega)] at hfr
    cases hfr
  have hdims := pasteRows_dims sources (tw, th).1 (tw, th).2 content 0
    (Image.new (if sources.any (fun s => s.format == "RGBA") then "RGBA" else "RGB")
      ((tw, th).1 * firstRow.length) ((tw, th).2 * content.length) Pixel.zero) image hpr
  have hwidth : image.width = tw * firstRow.length := hdims.1
  have hheight : image.height = th * content.length := hdims.2.1
  have htse : tile_size image content.length firstRow.length = (tw, th) := by
    unfold tile_size
    rw [hwidth, hheight, Nat.mul_comm tw firstRow.length, Nat.mul_comm th content.length,
      Nat.mul_div_cancel_left tw (Nat.pos_of_ne_zero hne),
      Nat.mul_div_cancel_left th (Nat.pos_of_ne_zero hlen)]
  rw [Nat.mul_div_cancel_left content.length (Nat.pos_of_ne_zero h2),
    Nat.mul_div_cancel_left firstRow.length (Nat.pos_of_ne_zero h1)]
  refine ⟨image, rfl, htse, ?_⟩
  intro r c dx dy hr hc hdx hdy
  have hb1 : (tile_size image content.length firstRow.length).1 * c + dx < image.width := by
    rw [htse, hwidth]
    show tw * c + dx < tw * firstRow.length
    have e1 : tw * (c + 1) = tw * c + tw := Nat.mul_succ _ _
    have e2 : tw * (c + 1) ≤ tw * firstRow.length := Nat.mul_le_mul_left _ hc
    omega
  have hb2 : (tile_size image content.length firstRow.length).2 * r + dy < image.height := by
    rw [htse, hheight]
    show th * r + dy < th * content.length
    have e1 : th * (r + 1) = th * r + th := Nat.mul_succ _ _
    have e2 : th * (r + 1) ≤ th * content.length := Nat.mul_le_mul_left _ hr
    omega
  have hpix := select_pix image content.length firstRow.length r c dx dy hb1 hb2
  rw [htse] at hpix
  exact hpix

theorem c10_result_tile_size_witness :
    ∃ img, okAsset (create_map [Asset.plain imgTwo] [[[0]]])
        = Asset.map img ([[[0]]] : List (List (List Nat))).length
            ([[0]] : List (List Nat)).length ∧
      tile_size img ([[[0]]] : List (List (List Nat))).length
          ([[0]] : List (List Nat)).length = (2, 2) ∧
      ∀ r c dx dy, r < ([[[0]]] : List (List (List Nat))).length →
          c < ([[0]] : List (List Nat)).length → dx < 2 → dy < 2 →
        (select img ([[[0]]] : List (List (List Nat))).length
            ([[0]] : List (List Nat)).length r c).image.pix dx dy =
          img.pix (2 * c + dx) (2 * r + dy) :=
  c10_result_tile_size [Asset.plain imgTwo] [[[0]]]
    (okAsset (create_map [Asset.plain imgTwo] [[[0]]])) 2 2 [[0]]
    rfl rfl rfl (by decide)

/-- C10 counterexample: with one 2×3 plain source and content [[]] (one
empty row), create_map succeeds with unified tile size (2, 3), but the
returned AssetMap has 1 row and 0 columns and its own tile_size evaluates
to (0, 3) in the Nat model (Python raises ZeroDivisionError on the zero
column count), not the unified (2, 3): the claim fails for an empty first
content row. -/
theorem c10_counterexample :
    unified_tile_size [Asset.plain imgTwoThree] = some (2, 3) ∧
    (create_map [Asset.plain imgTwoThree] [[]]).toOption.map
      (fun a => match a with
        | Asset.map img rows cols => some (tile_size img rows cols, rows, cols)
        | Asset.plain _ => none) = some (some ((0, 3), 1, 0)) ∧
    ((0 : Nat), (3 : Nat)) ≠ ((2 : Nat), (3 : Nat)) :=
  ⟨rfl, rfl, by decide⟩

theorem nonzeroPoints_eq_nil_of_transparent (img : Image)
    (hmode : img.mode = "RGBA")
    (halpha : ∀ x y, x < img.width → y < img.height → (img.pix x y).a = 0) :
    nonzeroPoints img = [] := by
  rw [List.eq_nil_iff_forall_not_mem]
  rintro ⟨x, y⟩ hmem
  unfold nonzeroPoints at hmem
  rw [List.mem_flatMap] at hmem
  obtain ⟨x0, hx0, hmem2⟩ := hmem
  rw [List.mem_filterMap] at hmem2
  obtain ⟨y0, hy0, hif⟩ := hmem2
  by_cases hz : img.nonzeroAt x0 y0 = true
  · unfold Image.nonzeroAt at hz
    rw [if_pos hmode, decide_eq_true_eq] at hz
    exact hz (halpha x0 y0 (List.mem_range.mp hx0) (List.mem_range.mp hy0))
  · rw [if_neg hz] at hif
    cases hif

theorem getbbox_none_of_nonzeroPoints_nil (img : Image) (h : nonzeroPoints img = []) :
    img.getbbox = none := by
  unfold Image.getbbox
  rw [h]

/-- C7 (amended): create_icon has no EmptySourceError and no guard for
empty content.  A fully transparent RGBA source (the claim's
"no non-fully-transparent pixels") gives getbbox None, crop(None) copies
the whole image, and the call SUCCEEDS.  The unguarded ZeroDivisionError
occurs exactly when the cropped content itself has a zero dimension, e.g.
for a zero-width source buffer. -/
theorem c7_no_empty_source_guard :
    (∀ (img : Image) (w h : Nat) (sm : Option Bool),
      img.mode = "RGBA" →
      (∀ x y, x < img.width → y < img.height → (img.pix x y).a = 0) →
      0 < img.width → 0 < img.height →
      ∃ a, create_icon (Asset.plain img) w h sm = Except.ok a) ∧
    (∀ (img : Image) (w h : Nat) (sm : Option Bool),
      img.width = 0 →
      create_icon (Asset.plain img) w h sm = Except.error IconError.zeroDivision) := by
  constructor
  · intro img w h sm hmode halpha hw hh
    have hpts := nonzeroPoints_eq_nil_of_transparent img hmode halpha
    have hbb : img.getbbox = none := getbbox_none_of_nonzeroPoints_nil img hpts
    have hic : iconContent (Asset.plain img) = img := by
      show cropBox img img.getbbox = img
      rw [hbb]
      rfl
    unfold create_icon
    rw [hic, if_neg (by omega)]
    exact ⟨_, rfl⟩
  · intro img w h sm hw
    have hpts : nonzeroPoints img = [] := by
      unfold nonzeroPoints
      rw [hw]
      rfl
    have hbb : img.getbbox = none := getbbox_none_of_nonzeroPoints_nil img hpts
    have hic : iconContent (Asset.plain img) = img := by
      show cropBox img img.getbbox = img
      rw [hbb]
      rfl
    unfold create_icon
    rw [hic, if_pos (Or.inl hw)]

theorem c7_no_empty_source_guard_witness :
    (∃ a, create_icon (Asset.plain imgClear) 4 4 none = Except.ok a) ∧
    create_icon (Asset.plain imgZeroW) 3 3 none = Except.error IconError.zeroDivision :=
  ⟨c7_no_empty_source_guard.1 imgClear 4 4 none rfl (fun _ _ _ _ => rfl)
      (by decide) (by decide),
    c7_no_empty_source_guard.2 imgZeroW 3 3 none rfl⟩

/-- C7 counterexample: the 1×1 fully transparent RGBA source has no
non-fully-transparent pixel (its bounding box is None), yet create_icon
does not fail with any EmptySourceError — it succeeds and returns a 4×4
RGBA icon, because crop(None) copies the whole image and the content size
is 1×1, not zero. -/
theorem c7_counterexample :
    imgClear.getbbox = none ∧
    (create_icon (Asset.plain imgClear) 4 4 none).toOption.map
      (fun a => (a.image.mode, a.image.width, a.image.height)) = some ("RGBA", 4, 4) := by
  refine ⟨rfl, ?_⟩
  have hic : iconContent (Asset.plain imgClear) = imgClear := rfl
  unfold create_icon
  rw [hic, if_neg (by decide)]
  rfl

theorem floor_scale_le (cw target : Nat) (other : ℚ) (hcw : 0 < cw) :
    (Int.floor ((cw : ℚ) * min ((target : ℚ) / cw) other)).toNat ≤ target := by
  have hcwQ : (0 : ℚ) < (cw : ℚ) := by exact_mod_cast hcw
  have h1 : min ((target : ℚ) / cw) other ≤ (target : ℚ) / cw := min_le_left _ _
  have h2 : (cw : ℚ) * min ((target : ℚ) / cw) other ≤ (cw : ℚ) * ((target : ℚ) / cw) :=
    mul_le_mul_of_nonneg_left h1 (le_of_lt hcwQ)
  have h3 : (cw : ℚ) * ((target : ℚ) / cw) = (target : ℚ) := by
    rw [mul_comm]
    exact div_mul_cancel₀ _ (ne_of_gt hcwQ)
  have h4 : (cw : ℚ) * min ((target : ℚ) / cw) other ≤ (target : ℚ) := h2.trans (le_of_eq h3)
  have h5 : Int.floor ((cw : ℚ) * min ((target : ℚ) / cw) other) ≤ (target : ℤ) := by
    have h6 := Int.floor_le_floor h4
    rwa [Int.floor_natCast] at h6
  exact Int.toNat_le.mpr h5

theorem iconScaled_le (source : Asset) (w h : Nat)
    (hcw : 0 < (iconContent source).width) (hch : 0 < (iconContent source).height) :
    (iconScaled source w h).1 ≤ w ∧ (iconScaled source w h).2 ≤ h := by
  constructor
  · show (Int.floor (((iconContent source).width : ℚ) *
        min ((w : ℚ) / (iconContent source).width)
            ((h : ℚ) / (iconContent source).height))).toNat ≤ w
    exact floor_scale_le (iconContent source).width w
      ((h : ℚ) / (iconContent source).height) hcw
  · show (Int.floor (((iconContent source).height : ℚ) *
        min ((w : ℚ) / (iconContent source).width)
            ((h : ℚ) / (iconContent source).height))).toNat ≤ h
    rw [min_comm]
    exact floor_scale_le (iconContent source).height h
      ((w : ℚ) / (iconContent source).width) hch

/-- C8: a successful create_icon returns a new plain Asset whose canvas is
RGBA and exactly (width, height); the resized content — of the scaled
dimensions — is pasted at the integer-truncated centered offset
((width - newW) / 2, (height - newH) / 2), pixel for pixel, and every
canvas pixel outside that rectangle is the transparent fill (0,0,0,0).
The embedding is purely functional: create_icon only reads its source, so
the source Asset is unchanged by construction. -/
theorem c8_icon_canvas (source : Asset) (w h : Nat) (sm : Option Bool) (a : Asset)
    (hok : create_icon source w h sm = Except.ok a) :
    a.image.mode = "RGBA" ∧ a.image.width = w ∧ a.image.height = h ∧
    (∀ dx dy, dx < (iconScaled source w h).1 → dy < (iconScaled source w h).2 →
      a.image.pix ((w - (iconScaled source w h).1) / 2 + dx)
                  ((h - (iconScaled source w h).2) / 2 + dy) =
        (resize (iconContent source) (iconScaled source w h).1 (iconScaled source w h).2
          (match sm with
           | none => Resampling.default
           | some true => Resampling.default
           | some false => Resampling.nearest)).pix dx dy) ∧
    (∀ px py, px < w → py < h →
      (px < (w - (iconScaled source w h).1) / 2 ∨
       (w - (iconScaled source w h).1) / 2 + (iconScaled source w h).1 ≤ px ∨
       py < (h - (iconScaled source w h).2) / 2 ∨
       (h - (iconScaled source w h).2) / 2 + (iconScaled source w h).2 ≤ py) →
      a.image.pix px py = Pixel.zero) := by
  unfold create_icon at hok
  by_cases hz : (iconContent source).width = 0 ∨ (iconContent source).height = 0
  · rw [if_pos hz] at hok
    cases hok
  · rw [if_neg hz] at hok
    injection hok with hok
    subst hok
    obtain ⟨hnw, hnh⟩ := iconScaled_le source w h
      (Nat.pos_of_ne_zero (fun hh2 => hz (Or.inl hh2)))
      (Nat.pos_of_ne_zero (fun hh2 => hz (Or.inr hh2)))
    have hox : (w - (iconScaled source w h).1) / 2 + (iconScaled source w h).1 ≤ w := by
      have := Nat.div_le_self (w - (iconScaled source w h).1) 2
      omega
    have hoy : (h - (iconScaled source w h).2) / 2 + (iconScaled source w h).2 ≤ h := by
      have := Nat.div_le_self (h - (iconScaled source w h).2) 2
      omega
    refine ⟨rfl, rfl, rfl, ?_, ?_⟩
    · intro dx dy hdx hdy
      exact paste_hit (Image.new "RGBA" w h Pixel.zero)
        (resize (iconContent source) (iconScaled source w h).1 (iconScaled source w h).2
          (match sm with
           | none => Resampling.default
           | some true => Resampling.default
           | some false => Resampling.nearest))
        ((w - (iconScaled source w h).1) / 2) ((h - (iconScaled source w h).2) / 2)
        dx dy hdx hdy
        (by show (w - (iconScaled source w h).1) / 2 + dx < w; omega)
        (by show (h - (iconScaled source w h).2) / 2 + dy < h; omega)
    · intro px py hpx hpy hout
      exact paste_frame (Image.new "RGBA" w h Pixel.zero)
        (resize (iconContent source) (iconScaled source w h).1 (iconScaled source w h).2
          (match sm with
           | none => Resampling.default
           | some true => Resampling.default
           | some false => Resampling.nearest))
        ((w - (iconScaled source w h).1) / 2) ((h - (iconScaled source w h).2) / 2)
        px py hout

theorem c8_icon_canvas_witness :
    (okIcon (create_icon (Asset.plain imgTwo) 4 4 (some false))).image.mode = "RGBA" ∧
    (okIcon (create_icon (Asset.plain imgTwo) 4 4 (some false))).image.width = 4 ∧
    (okIcon (create_icon (Asset.plain imgTwo) 4 4 (some false))).image.height = 4 :=
  ⟨(c8_icon_canvas (Asset.plain imgTwo) 4 4 (some false)
      (okIcon (create_icon (Asset.plain imgTwo) 4 4 (some false))) rfl).1,
   (c8_icon_canvas (Asset.plain imgTwo) 4 4 (some false)
      (okIcon (create_icon (Asset.plain imgTwo) 4 4 (some false))) rfl).2.1,
   (c8_icon_canvas (Asset.plain imgTwo) 4 4 (some false)
      (okIcon (create_icon (Asset.plain imgTwo) 4 4 (some false))) rfl).2.2.1⟩

/-- C4: for every grid cell (row, col) of a successful create_map call,
the reference [sourceIndex, tileRow, tileCol] resolves exactly as the code
does — an AssetMap source is narrowed to tile (tileRow, tileCol) via
select, a plain Asset's image is used directly with any extra indices
ignored — and the resolved tile is pasted into the canvas at offset
(col * tileWidth, row * tileHeight): whenever the resolved tile fits the
unified tile cell, every pixel of that cell region in the output equals
the corresponding pixel of the resolved tile. -/
theorem c4_cell_paste (sources : List Asset) (content : List (List (List Nat)))
    (a : Asset) (tw th : Nat) (firstRow rowCells : List (List Nat))
    (cell : List Nat) (t : Image) (r c dx dy : Nat)
    (h : create_map sources content = Except.ok a)
    (hts : unified_tile_size sources = some (tw, th))
    (hfr : content[0]? = some firstRow)
    (hrow : content[r]? = some rowCells)
    (hcell : rowCells[c]? = some cell)
    (hc : c < firstRow.length)
    (hres : resolveTile sources cell = Except.ok t)
    (htw : t.width ≤ tw) (hth : t.height ≤ th)
    (hdx : dx < t.width) (hdy : dy < t.height) :
    a.image.pix (c * tw + dx) (r * th + dy) = t.pix dx dy ∧
    (∀ i rest img, cell = i :: rest → sources[i]? = some (Asset.plain img) → t = img) := by
  obtain ⟨ts, fr2, image, hts2, hfr2, hpr, hz1, hz2, ha⟩ := create_map_ok sources content a h
  rw [hts] at hts2
  injection hts2 with hts2
  subst hts2
  rw [hfr] at hfr2
  injection hfr2 with hfr2
  subst hfr2
  subst ha
  constructor
  · have hr : r < content.length := by
      by_contra hcon
      push_neg at hcon
      rw [List.getElem?_eq_none hcon] at hrow
      cases hrow
    have hb1 : c * tw + dx <
        (Image.new (if sources.any (fun s => s.format == "RGBA") then "RGBA" else "RGB")
          ((tw, th).1 * firstRow.length) ((tw, th).2 * content.length) Pixel.zero).width := by
      show c * tw + dx < tw * firstRow.length
      have e1 : tw * (c + 1) = tw * c + tw := Nat.mul_succ _ _
      have e2 : tw * (c + 1) ≤ tw * firstRow.length := Nat.mul_le_mul_left _ hc
      have e3 : c * tw = tw * c := Nat.mul_comm _ _
      omega
    have hb2 : (0 + r) * th + dy <
        (Image.new (if sources.any (fun s => s.format == "RGBA") then "RGBA" else "RGB")
          ((tw, th).1 * firstRow.length) ((tw, th).2 * content.length) Pixel.zero).height := by
      show (0 + r) * th + dy < th * content.length
      have e1 : th * (r + 1) = th * r + th := Nat.mul_succ _ _
      have e2 : th * (r + 1) ≤ th * content.length := Nat.mul_le_mul_left _ hr
      have e3 : (0 + r) * th = th * r := by ring
      omega
    have H := pasteRows_hit sources tw th content 0 r
      (Image.new (if sources.any (fun s => s.format == "RGBA") then "RGBA" else "RGB")
        ((tw, th).1 * firstRow.length) ((tw, th).2 * content.length) Pixel.zero)
      image rowCells cell t c dx dy hpr hrow hcell hres hdx hdy htw hth hb1 hb2
    show image.pix (c * tw + dx) (r * th + dy) = t.pix dx dy
    have hzr : 0 + r = r := Nat.zero_add r
    rw [hzr] at H
    exact H
  · intro i rest img hcelleq hsrc
    rw [hcelleq] at hres
    unfold resolveTile at hres
    simp only [List.getElem?_cons_zero] at hres
    simp only [hsrc] at hres
    injection hres with hres
    exact hres.symm

theorem c4_cell_paste_witness :
    (okAsset (create_map [Asset.map imgGridSrc 2 2]
        [[[0, 0, 0], [0, 0, 1]], [[0, 1, 0], [0, 1, 1]]])).image.pix (1 * 1 + 0) (1 * 1 + 0)
      = (select imgGridSrc 2 2 1 1).image.pix 0 0 :=
  (c4_cell_paste [Asset.map imgGridSrc 2 2] [[[0, 0, 0], [0, 0, 1]], [[0, 1, 0], [0, 1, 1]]]
    (okAsset (create_map [Asset.map imgGridSrc 2 2]
      [[[0, 0, 0], [0, 0, 1]], [[0, 1, 0], [0, 1, 1]]]))
    1 1 [[0, 0, 0], [0, 0, 1]] [[0, 1, 0], [0, 1, 1]] [0, 1, 1]
    (select imgGridSrc 2 2 1 1).image 1 1 0 0
    rfl rfl rfl rfl rfl (by decide) rfl (by decide) (by decide) (by decide) (by decide)).1
